import Mathlib

/-
Verification of the shared-source-directory layer of the pyre-check client
(`client/filesystem.py`).

The Python module is embedded shallowly:

* Python exceptions become the inductive type `PyExc`.  `FileNotFoundError`
  is a subclass of `OSError` in Python, so the predicate `isOSError` (used to
  model `except OSError`) is true for both constructors.
* Every effectful primitive (reading the manifest, running `find`, `os.stat`,
  `os.remove`, `shutil.rmtree`, `os.symlink`, ...) is given its outcome by an
  oracle environment `Env`; the embedded functions are pure state-passing
  translations of the Python control flow over these oracles.
* Observable filesystem actions are recorded in an event trace (`Event`), so
  that ordering properties (e.g. "the manifest is written last") and frame
  properties ("nothing but the links was touched") can be stated.
* Python string operations are embedded with their Python semantics as
  structural functions on `List Char` (`pyStrip` for `str.strip()`,
  `pySplitNewline` for `str.split("\n")`, `pySplitWs` for `str.split()`,
  `pyStartswith`/`pyEndswith` for `str.startswith`/`str.endswith`), so that
  everything evaluates inside the kernel.
-/

deriving instance DecidableEq for Except

/-! ## Python exceptions -/

/-- Python exception values relevant to `client/filesystem.py`.
`unicodeDecodeError` models `UnicodeDecodeError` raised by reading manifest
bytes that are not valid UTF-8 (a `ValueError` subclass, but not a
`json.JSONDecodeError`).  `runtimeError` models the `RuntimeError`
("generator did not stop after throw") that `contextlib` raises when a
`@contextmanager` generator yields a second time after an exception is
thrown into it. -/
inductive PyExc where
  | osError (errnum : Nat)
  | fileNotFoundError
  | jsonDecodeError
  | unicodeDecodeError
  | valueError
  | runtimeError
  | calledProcessError (returncode : Int)
  | environmentException (message : String)
deriving DecidableEq, Repr

/-- Models `isinstance(e, OSError)`: in Python, `FileNotFoundError` is a
subclass of `OSError`, so `except OSError` catches both. -/
def isOSError : PyExc → Bool
  | .osError _ => true
  | .fileNotFoundError => true
  | _ => false

/-! ## fcntl / errno constants (Linux values) -/

def LOCK_EX : Nat := 2
def LOCK_NB : Nat := 4
def LOCK_UN : Nat := 8
def EEXIST : Nat := 17

/-! ## Python string primitives, embedded with Python semantics -/

/-- Boolean list-level "is a prefix of" test used to embed `str.startswith`. -/
def listIsPrefix : List Char → List Char → Bool
  | [], _ => true
  | _ :: _, [] => false
  | a :: as, b :: bs => a = b && listIsPrefix as bs

/-- Embeds Python `s.startswith(p)`. -/
def pyStartswith (s p : String) : Bool :=
  listIsPrefix p.data s.data

/-- Embeds Python `s.endswith(p)`. -/
def pyEndswith (s p : String) : Bool :=
  listIsPrefix p.data.reverse s.data.reverse

/-- Embeds Python `s.strip()`: drop leading and trailing whitespace. -/
def pyStrip (s : String) : String :=
  String.mk (((s.data.dropWhile Char.isWhitespace).reverse.dropWhile Char.isWhitespace).reverse)

/-- Split a character list at every newline.  This is the list-level core of
Python `s.split("\n")`: the result always has one more element than the number
of newline characters, in particular it is never empty. -/
def splitNl : List Char → List (List Char)
  | [] => [[]]
  | c :: rest =>
    if c = '\n' then [] :: splitNl rest
    else
      match splitNl rest with
      | [] => [[c]]
      | x :: xs => (c :: x) :: xs

/-- Embeds Python `s.split("\n")`. -/
def pySplitNewline (s : String) : List String :=
  (splitNl s.data).map String.mk

/-- Accumulator loop for Python whitespace `str.split()`: splits on runs of
whitespace and drops empty fields. -/
def wsSplitGo : List Char → List Char → List (List Char)
  | acc, [] => if acc.isEmpty then [] else [acc.reverse]
  | acc, c :: rest =>
    if c.isWhitespace then
      if acc.isEmpty then wsSplitGo [] rest else acc.reverse :: wsSplitGo [] rest
    else wsSplitGo (c :: acc) rest

/-- Embeds Python `s.split()` (no separator: split on whitespace runs). -/
def pySplitWs (s : String) : List String :=
  (wsSplitGo [] s.data).map String.mk

/-- Embeds `os.path.join(a, b)` for the uses in this module, where `b` is
always a relative path: concatenation with a single separator. -/
def os_path_join (a b : String) : String :=
  a ++ "/" ++ b

/-! ## Oracle environment and event trace -/

/-- Oracle for every effectful primitive the module touches.  A value of this
type fixes one concrete "filesystem condition" under which the embedded code
runs.

* `manifestRead` — outcome of `open(root/".pyre.source_directories")` followed
  by `json.load`: either the decoded list of tracked directories, or the
  exception raised.
* `lockDirExists` — whether `open(lock_path, "w+")` succeeds; when the parent
  directory is missing, the open raises `FileNotFoundError`.
* `listdirResult` — result of `os.listdir(root)`.
* `abspathFn`, `relpathFn`, `realpathFn` — pure path arithmetic
  (`os.path.abspath`, `os.path.relpath` on non-empty input, `os.path.realpath`).
* `findRaw` — outcome of the `subprocess.check_output(["find", ...])` call:
  the decoded stdout, or the exception raised.
* `isfileFn` — `os.path.isfile`.
* `statSize` — `os.stat(p).st_size`; `none` models `FileNotFoundError`.
* `vanishes` — whether the candidate disappears between discovery and the
  `try` body of `_merge_source_directory` (raising `FileNotFoundError`).
* `removeErr` / `rmtreeErr` — errno of the `OSError` raised by `os.remove` /
  `shutil.rmtree`, or `none` on success.
* `symlink1` / `symlink2` — errno of the `OSError` raised by the first /
  second (post-`os.unlink`) call to `os.symlink` at a given link path, or
  `none` on success.
* `unlinkErr` — errno of the `OSError` raised by the `os.unlink` call in the
  `EEXIST` branch of `_merge`, or `none` on success; that call is not inside
  any handler, so its failure propagates.
* `listdirErr` — errno of the `OSError` raised by `os.listdir(root)` at the
  top of `_clear`, or `none` on success; `_clear` has no handler, so its
  failure propagates before any removal is attempted.
* `manifestWriteErr` — errno of the `OSError` raised by opening or writing
  `root/".pyre.source_directories"` at the end of `prepare`, or `none` on
  success; the write is not inside any handler. -/
structure Env where
  manifestRead : Except PyExc (List String)
  lockDirExists : Bool
  listdirResult : List String
  abspathFn : String → String
  relpathFn : String → String → String
  realpathFn : String → String
  findRaw : String → Except PyExc String
  isfileFn : String → Bool
  statSize : String → Option Nat
  vanishes : String → Bool
  removeErr : String → Option Nat
  rmtreeErr : String → Option Nat
  symlink1 : String → Option Nat
  symlink2 : String → Option Nat
  unlinkErr : String → Option Nat
  listdirErr : Option Nat
  manifestWriteErr : Option Nat

/-- Observable filesystem actions performed by the embedded code, in order. -/
inductive Event where
  | makedirsRoot
  | openLockFile
  | flock (cmd : Nat)
  | readManifest
  | clearRemove (path : String)
  | runFind (dir : String)
  | linkCreate (path target : String)
  | unlinkPath (path : String)
  | manifestWrite (dirs : List String)
deriving DecidableEq, Repr

/-- Rebuild actions: clearing, scanning and link manipulation. -/
def isMutationEv : Event → Bool
  | .clearRemove _ => true
  | .runFind _ => true
  | .linkCreate _ _ => true
  | .unlinkPath _ => true
  | _ => false

/-- Manifest-file update. -/
def isWriteEv : Event → Bool
  | .manifestWrite _ => true
  | _ => false

/-! ## The data object -/

/-- Embeds the `SharedSourceDirectory` object: `__init__` stores the source
directories and the isolation flag (the Python `set()` only deduplicates;
iteration order is arbitrary, which the list order represents). -/
structure SharedSourceDirectory where
  source_directories : List String
  isolate : Bool
  pid : Nat

/-- Embeds `SharedSourceDirectory.get_root`. -/
def SharedSourceDirectory.get_root (s : SharedSourceDirectory) : String :=
  ".pyre/shared_source_directory" ++ (if s.isolate then "_" ++ toString s.pid else "")

/-! ## Module-level helpers (source order: bottom of filesystem.py) -/

/-- Embeds `is_empty(path)`: `os.stat(path).st_size == 0`, with
`FileNotFoundError` caught and mapped to `False`. -/
def is_empty (env : Env) (path : String) : Bool :=
  match env.statSize path with
  | some n => n == 0
  | none => false

/-- Outcome of `os.remove(path)` under the oracle. -/
def os_remove (env : Env) (path : String) : Except PyExc Unit :=
  match env.removeErr path with
  | none => .ok ()
  | some e => .error (.osError e)

/-- Outcome of `shutil.rmtree(path)` under the oracle. -/
def shutil_rmtree (env : Env) (path : String) : Except PyExc Unit :=
  match env.rmtreeErr path with
  | none => .ok ()
  | some e => .error (.osError e)

/-- Embeds `remove_if_exists(path)`: try `os.remove` swallowing `OSError`,
then try `shutil.rmtree` swallowing `OSError`. -/
def remove_if_exists (env : Env) (path : String) : Except PyExc Unit :=
  let step1 : Except PyExc Unit :=
    match os_remove env path with
    | .ok _ => .ok ()
    | .error e => if isOSError e then .ok () else .error e
  match step1 with
  | .error e => .error e
  | .ok _ =>
    match shutil_rmtree env path with
    | .ok _ => .ok ()
    | .error e => if isOSError e then .ok () else .error e

/-- State effect of `remove_if_exists(path)`: the entry is gone iff either
`os.remove` or `shutil.rmtree` succeeded (both are always attempted). -/
def remove_if_exists_removes (env : Env) (path : String) : Bool :=
  (env.removeErr path).isNone || (env.rmtreeErr path).isNone

/-! ## `_clear` -/

/-- Loop body of `SharedSourceDirectory._clear`: iterate over
`os.listdir(root)`, skip names starting with `".pyre"`, call
`remove_if_exists` on the rest.  Returns the trace of removal attempts and
the list of entry names still present afterwards. -/
def clearGo (env : Env) (root : String) : List String → List Event × List String
  | [] => ([], [])
  | name :: rest =>
    let r := clearGo env root rest
    if pyStartswith name ".pyre" then (r.1, name :: r.2)
    else
      let p := os_path_join root name
      (Event.clearRemove p :: r.1,
       if remove_if_exists_removes env p then r.2 else name :: r.2)

/-- Embeds the removal loop of `SharedSourceDirectory._clear` over a
successfully obtained `os.listdir(root)` listing.  The `os.listdir` call
itself can raise `OSError`, which propagates before any removal is attempted
(`_clear` has no handler); that failure path is modelled by `listdirErr` at
the call site in `prepareRebuild`. -/
def _clear (env : Env) (root : String) : List Event × List String :=
  clearGo env root env.listdirResult

/-! ## `_find_python_paths` -/

/-- Embeds `os.path.relpath(path, start)`.  On an empty `path`, Python's
`posixpath.relpath` raises `ValueError("no path specified")`; on non-empty
input it is pure path arithmetic, supplied by the oracle. -/
def os_path_relpath (env : Env) (path start : String) : Except PyExc String :=
  if path = "" then .error .valueError
  else .ok (env.relpathFn path start)

/-- Embeds `_find_python_paths(root)`: run `find` on the absolutized root,
decode, `strip()` and `split("\n")` the output.  `CalledProcessError` becomes
`EnvironmentException`; any other exception (notably `FileNotFoundError` when
the `find` executable is missing) propagates. -/
def _find_python_paths (env : Env) (root : String) : Except PyExc (List String) :=
  match env.findRaw (env.abspathFn root) with
  | .ok out => .ok (pySplitNewline (pyStrip out))
  | .error (.calledProcessError _) =>
    .error (.environmentException
      "pyre was unable to locate a source directory. Ensure that your project is built and re-run pyre.")
  | .error e => .error e

/-! ## `_merge_source_directory` -/

/-- First-match lookup in the association list modelling the Python dict
`all_paths` (keys are inserted at most once, see the uniqueness theorem). -/
def dictFind (m : List (String × String)) (k : String) : Option String :=
  match m with
  | [] => none
  | (k', v) :: rest => if k' = k then some v else dictFind rest k

/-- Loop body of `SharedSourceDirectory._merge_source_directory` over the
discovered paths.  Mirrors the Python control flow line by line:
`relative = os.path.relpath(path, source_directory)` (which raises
`ValueError` for an empty `path`, so the subsequent `if not path: continue`
guard is unreachable for the empty string), the `relative in all_paths`
membership skip, the `try` body with the disappearing-file race
(`FileNotFoundError` caught as `continue`), the `os.path.isfile` filter and
the empty-`__init__.py` filter, and finally the dict insertion. -/
def msdGo (env : Env) (source_directory : String) :
    List String → List (String × String) → Except PyExc (List (String × String))
  | [], all_paths => .ok all_paths
  | path :: rest, all_paths =>
    match os_path_relpath env path source_directory with
    | .error e => .error e
    | .ok relative =>
      if path = "" then msdGo env source_directory rest all_paths
      else if (dictFind all_paths relative).isSome then msdGo env source_directory rest all_paths
      else if env.vanishes path then msdGo env source_directory rest all_paths
      else
        let absolute := env.realpathFn path
        if !(env.isfileFn absolute) then msdGo env source_directory rest all_paths
        else if pyEndswith relative "__init__.py" && is_empty env absolute then
          msdGo env source_directory rest all_paths
        else msdGo env source_directory rest (all_paths ++ [(relative, absolute)])

/-- Embeds `SharedSourceDirectory._merge_source_directory`. -/
def _merge_source_directory (env : Env) (source_directory : String)
    (all_paths : List (String × String)) : Except PyExc (List (String × String)) :=
  match _find_python_paths env source_directory with
  | .error e => .error e
  | .ok paths => msdGo env source_directory paths all_paths

/-! ## `_merge` -/

/-- First loop of `_merge`: fold `_merge_source_directory` over the source
directories, recording one `runFind` event per directory scanned. -/
def mergeAccum (env : Env) :
    List String → List (String × String) → Except PyExc (List (String × String)) × List Event
  | [], m => (.ok m, [])
  | d :: rest, m =>
    match _merge_source_directory env d m with
    | .error e => (.error e, [Event.runFind d])
    | .ok m' => ((mergeAccum env rest m').1, Event.runFind d :: (mergeAccum env rest m').2)

/-- Second loop of `_merge`: create one symlink per mapping entry
(`os.makedirs` on the parent swallows `OSError` and is not observable here).
On `OSError` with `errno.EEXIST` from the first `os.symlink`: `os.unlink` the
path and retry once.  Neither the `os.unlink` nor the retried `os.symlink`
is inside any handler, so a failure of either propagates.  Any other
`OSError` from the first attempt is logged and the entry skipped. -/
def buildLinks (env : Env) (root : String) :
    List (String × String) → Except PyExc Unit × List Event
  | [] => (.ok (), [])
  | (relative, original) :: rest =>
    match env.symlink1 (os_path_join root relative) with
    | none =>
      ((buildLinks env root rest).1,
       Event.linkCreate (os_path_join root relative) original :: (buildLinks env root rest).2)
    | some errnum =>
      if errnum = EEXIST then
        match env.unlinkErr (os_path_join root relative) with
        | some eu => (.error (.osError eu), [])
        | none =>
          match env.symlink2 (os_path_join root relative) with
          | none =>
            ((buildLinks env root rest).1,
             Event.unlinkPath (os_path_join root relative) ::
               Event.linkCreate (os_path_join root relative) original ::
               (buildLinks env root rest).2)
          | some e2 => (.error (.osError e2), [Event.unlinkPath (os_path_join root relative)])
      else ((buildLinks env root rest).1, (buildLinks env root rest).2)

/-- Embeds `SharedSourceDirectory._merge`. -/
def _merge (env : Env) (root : String) (source_directories : List String) :
    Except PyExc Unit × List Event :=
  match (mergeAccum env source_directories []).1 with
  | .error e => (.error e, (mergeAccum env source_directories []).2)
  | .ok all_paths =>
    ((buildLinks env root all_paths).1,
     (mergeAccum env source_directories []).2 ++ (buildLinks env root all_paths).2)

/-! ## `acquire_lock` -/

/-- Embeds `lock_command = fcntl.LOCK_EX | fcntl.LOCK_NB if not blocking else
fcntl.LOCK_EX`. -/
def lockCommand (blocking : Bool) : Nat :=
  if !blocking then LOCK_EX ||| LOCK_NB else LOCK_EX

/-- Embeds the `acquire_lock(path, blocking)` `@contextmanager` generator
around a given body, with the full exception semantics of `contextlib`:

* `open(path, "w+")` raises `FileNotFoundError` (missing parent directory):
  the handler performs a bare `yield`, so the body runs unlocked.  That bare
  `yield` sits in the `except` clause, outside the `try`, so an exception
  thrown into the generator there propagates unchanged: the body's outcome
  (normal or exceptional) passes through.
* The open succeeds: `fcntl.lockf` takes the lock and the body runs at the
  first `yield`.  On normal exit the trailing `fcntl.lockf(..., LOCK_UN)`
  runs.  If the body raises, the exception is thrown into the generator at
  that `yield`: the unlock line is skipped (the lock drops when the file
  closes), and the exception propagates through the generator's `try` —
  except when it is itself a `FileNotFoundError`, which the generator's own
  `except FileNotFoundError: yield` catches: the generator yields a second
  time, so `contextlib` raises `RuntimeError` ("generator did not stop after
  throw") instead of the body's exception.

The open is modelled as either succeeding or raising `FileNotFoundError`;
`fcntl.lockf` is modelled as succeeding.  Other failures of these two calls
(for example a `PermissionError` from the open) would propagate out of the
`with` statement in the real code and are outside this model. -/
def acquire_lock (env : Env) (blocking : Bool) (body : Except PyExc Unit × List Event) :
    Except PyExc Unit × List Event :=
  if env.lockDirExists then
    match body.1 with
    | .ok _ =>
      (.ok (), Event.openLockFile :: Event.flock (lockCommand blocking) ::
        (body.2 ++ [Event.flock LOCK_UN]))
    | .error e =>
      if e = PyExc.fileNotFoundError then
        (.error .runtimeError,
         Event.openLockFile :: Event.flock (lockCommand blocking) :: body.2)
      else
        (.error e, Event.openLockFile :: Event.flock (lockCommand blocking) :: body.2)
  else body

/-! ## `prepare` -/

/-- Rebuild branch of `prepare`: `self._clear()` (whose initial
`os.listdir(root)` can raise `OSError`, propagating before any removal or
merge work), then `self._merge()`, then the manifest write (whose
`open(..., "w")` / `json.dump` can raise `OSError`, propagating after the
build).  The manifest write is reached only when `_merge` returned normally,
and a successful write is the last event. -/
def prepareRebuild (s : SharedSourceDirectory) (env : Env) (root : String) :
    Except PyExc Unit × List Event :=
  match env.listdirErr with
  | some e => (.error (.osError e), [])
  | none =>
    match (_merge env root s.source_directories).1 with
    | .error e => (.error e, (_clear env root).1 ++ (_merge env root s.source_directories).2)
    | .ok _ =>
      match env.manifestWriteErr with
      | some e =>
        (.error (.osError e), (_clear env root).1 ++ (_merge env root s.source_directories).2)
      | none =>
        (.ok (), (_clear env root).1 ++ (_merge env root s.source_directories).2 ++
          [Event.manifestWrite s.source_directories])

/-- Body of `prepare` inside the lock: read the manifest (`except (OSError,
json.JSONDecodeError): pass` falls through to the rebuild), return early when
`self._source_directories.issubset(tracked)`, otherwise rebuild. -/
def prepareBody (s : SharedSourceDirectory) (env : Env) (root : String) :
    Except PyExc Unit × List Event :=
  match env.manifestRead with
  | .ok tracked =>
    if s.source_directories.all (fun d => tracked.contains d) then
      (.ok (), [Event.readManifest])
    else ((prepareRebuild s env root).1, Event.readManifest :: (prepareRebuild s env root).2)
  | .error e =>
    if isOSError e || e == PyExc.jsonDecodeError then
      ((prepareRebuild s env root).1, Event.readManifest :: (prepareRebuild s env root).2)
    else (.error e, [Event.readManifest])

/-- Embeds `SharedSourceDirectory.prepare`: `os.makedirs(root)` with
`OSError` swallowed, then the manifest check / rebuild inside
`acquire_lock(root/".pyre.lock", blocking=True)`. -/
def SharedSourceDirectory.prepare (s : SharedSourceDirectory) (env : Env) :
    Except PyExc Unit × List Event :=
  let root := s.get_root
  ((acquire_lock env true (prepareBody s env root)).1,
   Event.makedirsRoot :: (acquire_lock env true (prepareBody s env root)).2)

/-- The full-rebuild continuation of `prepare`: what `prepare` does when the
manifest read yields a cache miss (the read outcome is discarded and the
clear/merge/write sequence runs under the lock). -/
def prepareOnCacheMiss (s : SharedSourceDirectory) (env : Env) :
    Except PyExc Unit × List Event :=
  let body := ((prepareRebuild s env s.get_root).1,
               Event.readManifest :: (prepareRebuild s env s.get_root).2)
  ((acquire_lock env true body).1, Event.makedirsRoot :: (acquire_lock env true body).2)

/-! ## `MercurialBackedFilesystem.list` -/

/-- Embeds `MercurialBackedFilesystem.list`, with the outcome of
`subprocess.check_output(["hg", "files", ...])` supplied as the argument:
exit code 1 means "no matches" and yields the empty list; any other
`CalledProcessError` and a missing `hg` executable raise
`EnvironmentException`. -/
def MercurialBackedFilesystem.list (hgFilesResult : Except PyExc String) :
    Except PyExc (List String) :=
  match hgFilesResult with
  | .ok out => .ok (pySplitWs out)
  | .error (.calledProcessError returncode) =>
    if returncode = 1 then .ok []
    else .error (.environmentException
      ("Unexpected return code " ++ toString returncode ++ " from call to hg files."))
  | .error .fileNotFoundError => .error (.environmentException "hg executable not found.")
  | .error e => .error e

/-! ## Behaviour classification helpers -/

/-- The manifest read either succeeded or raised one of the exception kinds
caught by `prepare` (`OSError` including `FileNotFoundError`, or
`json.JSONDecodeError`). -/
def manifestReadCaught (env : Env) : Bool :=
  match env.manifestRead with
  | .ok _ => true
  | .error e => isOSError e || e == PyExc.jsonDecodeError

/-- The `find` invocation for a directory is well behaved: it either
produces a listing with no empty entry, or fails with a nonzero exit status
(which `_find_python_paths` converts to `EnvironmentException`). -/
def findWellBehaved (env : Env) (d : String) : Bool :=
  match env.findRaw (env.abspathFn d) with
  | .ok out => !((pySplitNewline (pyStrip out)).contains "")
  | .error (.calledProcessError _) => true
  | .error _ => false

/-- Every manifest update in the trace comes after every rebuild mutation:
the trace splits into a write-free first part and a mutation-free second
part. -/
def writeAfterMutations (l : List Event) : Prop :=
  ∃ pre post, l = pre ++ post ∧ (∀ e ∈ pre, isWriteEv e = false) ∧
    (∀ e ∈ post, isMutationEv e = false)

/-! ## Concrete environments for witnesses and counterexamples -/

/-- Embeds Python `s[n:]`. -/
def pyDrop (s : String) (n : Nat) : String :=
  String.mk (s.data.drop n)

/-- Concrete `os.path.relpath` behaviour for paths lying directly under the
start directory. -/
def simpleRelpath (p d : String) : String :=
  if pyStartswith p (d ++ "/") then pyDrop p (d.length + 1) else p

/-- A benign oracle environment: manifest absent, lock directory present,
empty overlay root, every filesystem primitive succeeds. -/
def envBase : Env where
  manifestRead := .error .fileNotFoundError
  lockDirExists := true
  listdirResult := []
  abspathFn := fun p => p
  relpathFn := simpleRelpath
  realpathFn := fun p => p
  findRaw := fun _ => .ok ""
  isfileFn := fun _ => true
  statSize := fun _ => some 5
  vanishes := fun _ => false
  removeErr := fun _ => none
  rmtreeErr := fun _ => none
  symlink1 := fun _ => none
  symlink2 := fun _ => none
  unlinkErr := fun _ => none
  listdirErr := none
  manifestWriteErr := none

def dirA : String := "/A"

def dirB : String := "/B"

/-- Two source trees: `A` has an empty `pkg/__init__.py` and `pkg/mod.py`,
`B` has a 10-byte `pkg/__init__.py` and `pkg/other.py`. -/
def envAB : Env :=
  { envBase with
    findRaw := fun r =>
      if r = "/A" then .ok "/A/pkg/__init__.py\n/A/pkg/mod.py"
      else if r = "/B" then .ok "/B/pkg/__init__.py\n/B/pkg/other.py"
      else .error (.calledProcessError 2),
    isfileFn := fun p =>
      p = "/A/pkg/__init__.py" || p = "/A/pkg/mod.py" ||
      p = "/B/pkg/__init__.py" || p = "/B/pkg/other.py",
    statSize := fun p =>
      if p = "/A/pkg/__init__.py" then some 0
      else if p = "/B/pkg/__init__.py" then some 10
      else some 5 }

/-- The mapping `_merge` computes for the given processing order of the
source directories (the error case does not occur in the instances used). -/
def mergedAB (ds : List String) : List (String × String) :=
  match (mergeAccum envAB ds []).1 with
  | .ok m => m
  | .error _ => []

/-! ## Claim theorems -/

/-- C2: merging directories A (empty `pkg/__init__.py`, `pkg/mod.py`) and B
(non-empty `pkg/__init__.py`, `pkg/other.py`) maps `pkg/__init__.py` to B's
file, `pkg/mod.py` to A's file and `pkg/other.py` to B's file, in both
processing orders; A's empty initializer file is never added to the mapping
(each result has exactly these three entries). -/
theorem merge_conflict_resolution_order_independent :
    ((mergeAccum envAB [dirA, dirB] []).1 =
      .ok [("pkg/mod.py", "/A/pkg/mod.py"), ("pkg/__init__.py", "/B/pkg/__init__.py"),
           ("pkg/other.py", "/B/pkg/other.py")]) ∧
    ((mergeAccum envAB [dirB, dirA] []).1 =
      .ok [("pkg/__init__.py", "/B/pkg/__init__.py"), ("pkg/other.py", "/B/pkg/other.py"),
           ("pkg/mod.py", "/A/pkg/mod.py")]) ∧
    dictFind (mergedAB [dirA, dirB]) "pkg/__init__.py" = some "/B/pkg/__init__.py" ∧
    dictFind (mergedAB [dirB, dirA]) "pkg/__init__.py" = some "/B/pkg/__init__.py" ∧
    dictFind (mergedAB [dirA, dirB]) "pkg/mod.py" = some "/A/pkg/mod.py" ∧
    dictFind (mergedAB [dirB, dirA]) "pkg/mod.py" = some "/A/pkg/mod.py" ∧
    dictFind (mergedAB [dirA, dirB]) "pkg/other.py" = some "/B/pkg/other.py" ∧
    dictFind (mergedAB [dirB, dirA]) "pkg/other.py" = some "/B/pkg/other.py" := by
  refine ⟨by decide, by decide, ?_, ?_, ?_, ?_, ?_, ?_⟩ <;> decide

/-- C7: when the lock file's parent directory is missing, `acquire_lock`
degrades to a no-op pass-through of the body (the generator yields
successfully, the caller proceeds unlocked, and the body's outcome — normal
or exceptional — is returned unchanged, no acquisition error is raised);
when the directory exists, an exclusive `fcntl` lock (the chosen command
always includes `LOCK_EX`) is taken before the body and released again with
`LOCK_UN` on normal exit from the context. -/
theorem acquire_lock_degrade_and_exclusive (env : Env) (blocking : Bool)
    (body : Except PyExc Unit × List Event) :
    (env.lockDirExists = false → acquire_lock env blocking body = body) ∧
    (env.lockDirExists = true → body.1 = .ok () →
      acquire_lock env blocking body =
        (.ok (), Event.openLockFile :: Event.flock (lockCommand blocking) ::
          (body.2 ++ [Event.flock LOCK_UN])) ∧
      lockCommand blocking &&& LOCK_EX ≠ 0) := by
  constructor
  · intro h; simp [acquire_lock, h]
  · intro h hb
    refine ⟨by simp [acquire_lock, h, hb], ?_⟩
    cases blocking <;> decide

/-- Witness for C7 at concrete inputs: with the lock directory missing the
body's outcome passes through unchanged, and with it present the exclusive
lock brackets a normally terminating body. -/
theorem acquire_lock_degrade_and_exclusive_witness :
    (({ envBase with lockDirExists := false } : Env).lockDirExists = false ∧
     acquire_lock { envBase with lockDirExists := false } true (.ok (), []) = (.ok (), [])) ∧
    (envBase.lockDirExists = true ∧
     ((.ok (), []) : Except PyExc Unit × List Event).1 = .ok () ∧
     (acquire_lock envBase true (.ok (), []) =
        (.ok (), Event.openLockFile :: Event.flock (lockCommand true) ::
          (([] : List Event) ++ [Event.flock LOCK_UN])) ∧
      lockCommand true &&& LOCK_EX ≠ 0)) :=
  ⟨⟨rfl, (acquire_lock_degrade_and_exclusive { envBase with lockDirExists := false } true
      (.ok (), [])).1 rfl⟩,
   ⟨rfl, rfl, (acquire_lock_degrade_and_exclusive envBase true (.ok (), [])).2 rfl rfl⟩⟩

/-- C8: the Mercurial-backed lister returns the empty list when `hg files`
exits with status 1 ("no matches"), raises `EnvironmentException` for every
other nonzero exit status, and raises `EnvironmentException` when the `hg`
executable is missing. -/
theorem mercurial_list_exit_codes :
    (∀ returncode : Int,
      MercurialBackedFilesystem.list (.error (.calledProcessError returncode)) =
        if returncode = 1 then .ok []
        else .error (.environmentException
          ("Unexpected return code " ++ toString returncode ++ " from call to hg files."))) ∧
    MercurialBackedFilesystem.list (.error .fileNotFoundError) =
      .error (.environmentException "hg executable not found.") :=
  ⟨fun _ => rfl, rfl⟩

/-- A client requesting the single source directory `/A`, without isolation. -/
def sA : SharedSourceDirectory where
  source_directories := ["/A"]
  isolate := false
  pid := 0

/-- Environment whose manifest decodes to the superset `["/A", "/B"]`. -/
def envTracked : Env :=
  { envBase with manifestRead := .ok ["/A", "/B"] }

/-- C1: when the manifest read succeeds with a tracked set containing every
requested directory, `prepare` returns successfully and performs no rebuild
action: no clear, no scan, no link creation or removal, and no manifest
write (so the manifest file is left unchanged). -/
theorem prepare_subset_noop (s : SharedSourceDirectory) (env : Env) (tracked : List String)
    (hread : env.manifestRead = .ok tracked)
    (hsub : s.source_directories.all (fun d => tracked.contains d) = true) :
    (s.prepare env).1 = .ok () ∧
    ∀ e ∈ (s.prepare env).2, isMutationEv e = false ∧ isWriteEv e = false := by
  have hbody : prepareBody s env s.get_root = (.ok (), [Event.readManifest]) := by
    unfold prepareBody
    rw [hread]
    simp only [hsub, if_true]
  by_cases hl : env.lockDirExists
  · have hpre : s.prepare env =
        (.ok (), [Event.makedirsRoot, Event.openLockFile, Event.flock (lockCommand true),
                  Event.readManifest, Event.flock LOCK_UN]) := by
      simp [SharedSourceDirectory.prepare, acquire_lock, hl, hbody]
    rw [hpre]
    exact ⟨rfl, by decide⟩
  · have hpre : s.prepare env = (.ok (), [Event.makedirsRoot, Event.readManifest]) := by
      simp [SharedSourceDirectory.prepare, acquire_lock, hl, hbody]
    rw [hpre]
    exact ⟨rfl, by decide⟩

/-- Witness for C1 at a concrete input: requested `["/A"]` is a subset of the
cached `["/A", "/B"]`, and `prepare` is a no-op. -/
theorem prepare_subset_noop_witness :
    envTracked.manifestRead = .ok ["/A", "/B"] ∧
    sA.source_directories.all (fun d => (["/A", "/B"] : List String).contains d) = true ∧
    ((sA.prepare envTracked).1 = .ok () ∧
     ∀ e ∈ (sA.prepare envTracked).2, isMutationEv e = false ∧ isWriteEv e = false) :=
  ⟨rfl, by decide, prepare_subset_noop sA envTracked ["/A", "/B"] rfl (by decide)⟩

/-- Environment whose manifest file holds bytes that are not valid UTF-8:
reading it raises `UnicodeDecodeError`, which is a `ValueError` but not a
`json.JSONDecodeError`, so the `except (OSError, json.JSONDecodeError)`
clause does not catch it. -/
def envUndecodable : Env :=
  { envBase with manifestRead := .error .unicodeDecodeError }

/-- Counterexample to C5 as stated: a manifest whose content fails to decode
as UTF-8 is not a silent cache miss — the `UnicodeDecodeError` escapes
`prepare` to the caller, so "never raises an error" is false for that
manifest state. -/
theorem manifest_undecodable_bytes_escapes :
    (sA.prepare envUndecodable).1 = .error .unicodeDecodeError := by decide

/-- C5 (amended): whenever the manifest read fails with one of the exception
kinds the code actually catches (`OSError` — including a missing or
unreadable file — or `json.JSONDecodeError` for content that fails to
JSON-decode), `prepare` behaves exactly as the full-rebuild continuation:
the read error is discarded (never surfaced to the caller), the cache is
treated as missed and the clear/merge/build/manifest-write sequence runs.
Manifest content whose bytes fail to decode as UTF-8 is the exception: it
raises `UnicodeDecodeError`, which the handler does not catch and `prepare`
propagates (see the counterexample). -/
theorem manifest_load_failure_rebuilds (s : SharedSourceDirectory) (env : Env) (e : PyExc)
    (h1 : env.manifestRead = .error e)
    (h2 : isOSError e = true ∨ e = .jsonDecodeError) :
    s.prepare env = prepareOnCacheMiss s env := by
  have hc : (isOSError e || e == PyExc.jsonDecodeError) = true := by
    rcases h2 with h | h
    · simp [h]
    · simp [h]
  simp [SharedSourceDirectory.prepare, prepareOnCacheMiss, prepareBody, h1, hc]

/-- Witness for C5 at a concrete input: an absent manifest file
(`FileNotFoundError`) makes `prepare` run the full rebuild. -/
theorem manifest_load_failure_rebuilds_witness :
    envBase.manifestRead = .error .fileNotFoundError ∧
    (isOSError .fileNotFoundError = true ∨ PyExc.fileNotFoundError = .jsonDecodeError) ∧
    sA.prepare envBase = prepareOnCacheMiss sA envBase :=
  ⟨rfl, Or.inl rfl,
   manifest_load_failure_rebuilds sA envBase .fileNotFoundError rfl (Or.inl rfl)⟩

/-! ## C9: `find` output splitting -/

lemma splitNl_ne_nil (l : List Char) : splitNl l ≠ [] := by
  induction l with
  | nil => simp [splitNl]
  | cons c rest ih =>
    unfold splitNl
    by_cases h : c = '\n'
    · simp [h]
    · simp only [h, if_false]
      cases hs : splitNl rest <;> simp

/-- C9: for every environment and root, a successful `_find_python_paths`
returns at least one element; when the `find` command produces no output the
result is the one-element list containing the empty string (not the empty
list), and that empty-string element is consumed by the per-directory merge
step (`_merge_source_directory` reaches the `os.path.relpath` call on it,
which raises `ValueError`). -/
theorem find_python_paths_nonempty (env : Env) (root : String) :
    (∀ l, _find_python_paths env root = .ok l → 1 ≤ l.length) ∧
    (∀ out, env.findRaw (env.abspathFn root) = .ok out → pyStrip out = "" →
      _find_python_paths env root = .ok [""] ∧
      ∀ m, _merge_source_directory env root m = .error .valueError) := by
  constructor
  · intro l hl
    cases hfr : env.findRaw (env.abspathFn root) with
    | ok out =>
      have heq : _find_python_paths env root = .ok (pySplitNewline (pyStrip out)) := by
        unfold _find_python_paths; rw [hfr]
      rw [heq] at hl
      cases hl
      have hne := splitNl_ne_nil (pyStrip out).data
      have hpos : 0 < (splitNl (pyStrip out).data).length := List.length_pos.mpr hne
      simpa [pySplitNewline] using hpos
    | error e =>
      unfold _find_python_paths at hl
      rw [hfr] at hl
      cases e <;> simp at hl
  · intro out hout hstrip
    have heq : _find_python_paths env root = .ok (pySplitNewline (pyStrip out)) := by
      unfold _find_python_paths
      rw [hout]
    have hfind : _find_python_paths env root = .ok [""] := by
      rw [heq, hstrip]
      decide
    refine ⟨hfind, fun m => ?_⟩
    unfold _merge_source_directory
    rw [hfind]
    rfl

/-- Witness for C9 at a concrete input: `find` over `/A` produces no output
under `envBase`, the result is `[""]`, and the merge step errors on it. -/
theorem find_python_paths_nonempty_witness :
    envBase.findRaw (envBase.abspathFn "/A") = .ok "" ∧ pyStrip "" = "" ∧
    _find_python_paths envBase "/A" = .ok [""] ∧
    _merge_source_directory envBase "/A" [] = .error .valueError :=
  ⟨rfl, rfl,
   ((find_python_paths_nonempty envBase "/A").2 "" rfl rfl).1,
   ((find_python_paths_nonempty envBase "/A").2 "" rfl rfl).2 []⟩

/-! ## C10: frame property of `_clear` -/

lemma remove_if_exists_ok (env : Env) (p : String) : remove_if_exists env p = .ok () := by
  unfold remove_if_exists os_remove shutil_rmtree
  cases env.removeErr p <;> cases env.rmtreeErr p <;> simp [isOSError]

lemma os_path_join_right_inj {root a b : String}
    (h : os_path_join root a = os_path_join root b) : a = b := by
  unfold os_path_join at h
  have hd := congrArg String.data h
  simp only [String.data_append] at hd
  exact String.ext (List.append_cancel_left hd)

lemma clearGo_events_shape (env : Env) (root : String) (names : List String) (e : Event)
    (he : e ∈ (clearGo env root names).1) :
    ∃ n, n ∈ names ∧ pyStartswith n ".pyre" = false ∧
      e = Event.clearRemove (os_path_join root n) := by
  induction names with
  | nil => simp [clearGo] at he
  | cons name rest ih =>
    unfold clearGo at he
    by_cases h : pyStartswith name ".pyre"
    · simp only [h, if_true] at he
      obtain ⟨n, hn, hns, rfl⟩ := ih he
      exact ⟨n, List.mem_cons_of_mem _ hn, hns, rfl⟩
    · simp only [h, if_false, Bool.false_eq_true, List.mem_cons] at he
      rcases he with rfl | he
      · exact ⟨name, List.mem_cons_self _ _, by simp [h], rfl⟩
      · obtain ⟨n, hn, hns, rfl⟩ := ih he
        exact ⟨n, List.mem_cons_of_mem _ hn, hns, rfl⟩

lemma clearGo_events_mem (env : Env) (root : String) (names : List String) (name : String)
    (h1 : name ∈ names) (h2 : pyStartswith name ".pyre" = false) :
    Event.clearRemove (os_path_join root name) ∈ (clearGo env root names).1 := by
  induction names with
  | nil => simp at h1
  | cons n rest ih =>
    unfold clearGo
    rcases List.mem_cons.mp h1 with rfl | h1
    · simp [h2]
    · by_cases h : pyStartswith n ".pyre" <;> simp [h, ih h1]

lemma clearGo_surv_pyre (env : Env) (root : String) (names : List String) (name : String)
    (h1 : name ∈ names) (h2 : pyStartswith name ".pyre" = true) :
    name ∈ (clearGo env root names).2 := by
  induction names with
  | nil => simp at h1
  | cons n rest ih =>
    unfold clearGo
    rcases List.mem_cons.mp h1 with rfl | h1
    · simp [h2]
    · by_cases h : pyStartswith n ".pyre"
      · simp [h, ih h1]
      · simp only [h, if_false, Bool.false_eq_true]
        split <;> simp [ih h1]

lemma clearGo_surv_other (env : Env) (root : String) (names : List String) (name : String)
    (h2 : pyStartswith name ".pyre" = false) :
    (name ∈ (clearGo env root names).2 ↔
      name ∈ names ∧ remove_if_exists_removes env (os_path_join root name) = false) := by
  induction names with
  | nil => simp [clearGo]
  | cons n rest ih =>
    unfold clearGo
    by_cases h : pyStartswith n ".pyre"
    · have hne : name ≠ n := fun heq => by rw [heq, h] at h2; cases h2
      simp [h, ih, hne]
    · by_cases hr : remove_if_exists_removes env (os_path_join root n)
      · simp only [h, if_false, Bool.false_eq_true, hr, if_true]
        rcases eq_or_ne name n with rfl | hne
        · simp [ih, hr]
        · simp [ih, hne]
      · simp only [h, if_false, Bool.false_eq_true, hr, List.mem_cons]
        rcases eq_or_ne name n with rfl | hne
        · simp [ih, hr, Bool.eq_false_iff]
        · simp [hne, ih]

/-- C10: `_clear` leaves untouched every direct entry whose name starts with
`".pyre"` (any such name, not only the two reserved metadata files): it stays
present and no removal is attempted on it.  Every other direct entry gets a
removal attempt and survives exactly when both `os.remove` and
`shutil.rmtree` failed on it; the removal helper itself never raises. -/
theorem clear_preserves_pyre_entries (env : Env) (root : String) :
    (∀ name ∈ env.listdirResult, pyStartswith name ".pyre" = true →
      name ∈ (_clear env root).2 ∧
      Event.clearRemove (os_path_join root name) ∉ (_clear env root).1) ∧
    (∀ name ∈ env.listdirResult, pyStartswith name ".pyre" = false →
      Event.clearRemove (os_path_join root name) ∈ (_clear env root).1 ∧
      (name ∈ (_clear env root).2 ↔
        remove_if_exists_removes env (os_path_join root name) = false)) ∧
    (∀ p, remove_if_exists env p = .ok ()) := by
  refine ⟨?_, ?_, remove_if_exists_ok env⟩
  · intro name h1 h2
    refine ⟨clearGo_surv_pyre env root _ name h1 h2, fun he => ?_⟩
    obtain ⟨n, _, hns, heq⟩ := clearGo_events_shape env root _ _ he
    have hj : os_path_join root name = os_path_join root n := by
      injection heq
    rw [os_path_join_right_inj hj, hns] at h2
    cases h2
  · intro name h1 h2
    refine ⟨clearGo_events_mem env root _ name h1 h2, ?_⟩
    unfold _clear
    rw [clearGo_surv_other env root _ name h2]
    simp [h1]

/-- Witness for C10 at a concrete input: with the overlay root containing
`.pyre_extra` (not one of the two reserved files) and `junk`, the former is
preserved without a removal attempt and the latter gets one. -/
theorem clear_preserves_pyre_entries_witness :
    (".pyre_extra" ∈ ({ envBase with listdirResult := [".pyre_extra", "junk"] } : Env).listdirResult ∧
     pyStartswith ".pyre_extra" ".pyre" = true ∧
     "junk" ∈ ({ envBase with listdirResult := [".pyre_extra", "junk"] } : Env).listdirResult ∧
     pyStartswith "junk" ".pyre" = false) ∧
    (".pyre_extra" ∈ (_clear { envBase with listdirResult := [".pyre_extra", "junk"] } "/r").2 ∧
     Event.clearRemove (os_path_join "/r" ".pyre_extra") ∉
       (_clear { envBase with listdirResult := [".pyre_extra", "junk"] } "/r").1) ∧
    Event.clearRemove (os_path_join "/r" "junk") ∈
      (_clear { envBase with listdirResult := [".pyre_extra", "junk"] } "/r").1 :=
  ⟨⟨by decide, by decide, by decide, by decide⟩,
   (clear_preserves_pyre_entries { envBase with listdirResult := [".pyre_extra", "junk"] } "/r").1
     ".pyre_extra" (by decide) (by decide),
   ((clear_preserves_pyre_entries { envBase with listdirResult := [".pyre_extra", "junk"] } "/r").2.1
     "junk" (by decide) (by decide)).1⟩

/-! ## C6: shape of the merged mapping -/

lemma dictFind_cons (k' v' k : String) (rest : List (String × String)) :
    dictFind ((k', v') :: rest) k = if k' = k then some v' else dictFind rest k := rfl

lemma dictFind_append_some {m : List (String × String)} {k v : String}
    (h : dictFind m k = some v) (m2 : List (String × String)) :
    dictFind (m ++ m2) k = some v := by
  induction m with
  | nil => simp [dictFind] at h
  | cons p rest ih =>
    obtain ⟨k', v'⟩ := p
    rw [dictFind_cons] at h
    rw [List.cons_append, dictFind_cons]
    by_cases hk : k' = k
    · rw [if_pos hk] at h
      rw [if_pos hk]
      exact h
    · rw [if_neg hk] at h
      rw [if_neg hk]
      exact ih h

lemma dictFind_none_not_mem {m : List (String × String)} {k : String}
    (h : dictFind m k = none) : k ∉ m.map Prod.fst := by
  induction m with
  | nil => simp
  | cons p rest ih =>
    obtain ⟨k', v'⟩ := p
    rw [dictFind_cons] at h
    by_cases hk : k' = k
    · simp [hk] at h
    · rw [if_neg hk] at h
      simp [ih h, Ne.symm hk]

lemma msdGo_cons (env : Env) (d path : String) (rest : List String)
    (m0 : List (String × String)) (hp : path ≠ "") :
    msdGo env d (path :: rest) m0 =
      if (dictFind m0 (env.relpathFn path d)).isSome then msdGo env d rest m0
      else if env.vanishes path then msdGo env d rest m0
      else if !(env.isfileFn (env.realpathFn path)) then msdGo env d rest m0
      else if pyEndswith (env.relpathFn path d) "__init__.py" &&
              is_empty env (env.realpathFn path) then msdGo env d rest m0
      else msdGo env d rest (m0 ++ [(env.relpathFn path d, env.realpathFn path)]) := by
  have h1 : os_path_relpath env path d = .ok (env.relpathFn path d) := by
    unfold os_path_relpath
    rw [if_neg hp]
  conv_lhs => unfold msdGo
  rw [h1]
  simp only [hp, if_false]

lemma msdGo_props (env : Env) (d : String) :
    ∀ (paths : List String) (m0 m : List (String × String)),
      msdGo env d paths m0 = .ok m →
      ((m0.map Prod.fst).Nodup → (m.map Prod.fst).Nodup) ∧
      (∀ k v, dictFind m0 k = some v → dictFind m k = some v) ∧
      (∀ k v, (k, v) ∈ m → (k, v) ∈ m0 ∨
        (env.isfileFn v = true ∧
         (pyEndswith k "__init__.py" && is_empty env v) = false)) := by
  intro paths
  induction paths with
  | nil =>
    intro m0 m h
    unfold msdGo at h
    cases h
    exact ⟨id, fun _ _ hv => hv, fun _ _ hv => Or.inl hv⟩
  | cons path rest ih =>
    intro m0 m h
    by_cases hp : path = ""
    · rw [hp] at h
      exact absurd h (by simp [msdGo, os_path_relpath])
    rw [msdGo_cons env d path rest m0 hp] at h
    by_cases h1 : (dictFind m0 (env.relpathFn path d)).isSome
    · rw [if_pos h1] at h; exact ih m0 m h
    rw [if_neg h1] at h
    by_cases h2 : env.vanishes path = true
    · rw [if_pos h2] at h; exact ih m0 m h
    rw [if_neg h2] at h
    by_cases h3 : (!(env.isfileFn (env.realpathFn path))) = true
    · rw [if_pos h3] at h; exact ih m0 m h
    rw [if_neg h3] at h
    by_cases h4 : (pyEndswith (env.relpathFn path d) "__init__.py" &&
        is_empty env (env.realpathFn path)) = true
    · rw [if_pos h4] at h; exact ih m0 m h
    rw [if_neg h4] at h
    obtain ⟨A, B, C⟩ :=
      ih (m0 ++ [(env.relpathFn path d, env.realpathFn path)]) m h
    have hnone : dictFind m0 (env.relpathFn path d) = none :=
      Option.not_isSome_iff_eq_none.mp h1
    have hnotmem := dictFind_none_not_mem hnone
    have hfile : env.isfileFn (env.realpathFn path) = true := by
      simpa using h3
    have hinit : (pyEndswith (env.relpathFn path d) "__init__.py" &&
        is_empty env (env.realpathFn path)) = false := Bool.eq_false_iff.mpr h4
    refine ⟨fun hn0 => A ?_, fun k v hv => B k v (dictFind_append_some hv _),
            fun k v hv => ?_⟩
    · simpa [List.nodup_append, hn0] using hnotmem
    · rcases C k v hv with hin | hP
      · rcases List.mem_append.mp hin with hin0 | hin1
        · exact Or.inl hin0
        · simp only [List.mem_singleton, Prod.mk.injEq] at hin1
          obtain ⟨rfl, rfl⟩ := hin1
          exact Or.inr ⟨hfile, hinit⟩
      · exact Or.inr hP

lemma merge_source_directory_props (env : Env) (d : String)
    (m0 m1 : List (String × String))
    (h : _merge_source_directory env d m0 = .ok m1) :
    ((m0.map Prod.fst).Nodup → (m1.map Prod.fst).Nodup) ∧
    (∀ k v, dictFind m0 k = some v → dictFind m1 k = some v) ∧
    (∀ k v, (k, v) ∈ m1 → (k, v) ∈ m0 ∨
      (env.isfileFn v = true ∧
       (pyEndswith k "__init__.py" && is_empty env v) = false)) := by
  unfold _merge_source_directory at h
  cases hf : _find_python_paths env d with
  | error e => rw [hf] at h; exact Except.noConfusion h
  | ok paths => rw [hf] at h; exact msdGo_props env d paths m0 m1 h

lemma mergeAccum_props (env : Env) :
    ∀ (dirs : List String) (m0 m : List (String × String)),
      (mergeAccum env dirs m0).1 = .ok m →
      ((m0.map Prod.fst).Nodup → (m.map Prod.fst).Nodup) ∧
      (∀ k v, dictFind m0 k = some v → dictFind m k = some v) ∧
      (∀ k v, (k, v) ∈ m → (k, v) ∈ m0 ∨
        (env.isfileFn v = true ∧
         (pyEndswith k "__init__.py" && is_empty env v) = false)) := by
  intro dirs
  induction dirs with
  | nil =>
    intro m0 m h
    simp only [mergeAccum] at h
    cases h
    exact ⟨id, fun _ _ hv => hv, fun _ _ hv => Or.inl hv⟩
  | cons d rest ih =>
    intro m0 m h
    unfold mergeAccum at h
    cases hd : _merge_source_directory env d m0 with
    | error e => rw [hd] at h; exact absurd h (by simp)
    | ok m1 =>
      rw [hd] at h
      obtain ⟨A1, B1, C1⟩ := merge_source_directory_props env d m0 m1 hd
      obtain ⟨A2, B2, C2⟩ := ih m1 m h
      refine ⟨fun hn => A2 (A1 hn), fun k v hv => B2 k v (B1 k v hv),
              fun k v hv => ?_⟩
      rcases C2 k v hv with hin | hP
      · rcases C1 k v hin with h0 | hP
        · exact Or.inl h0
        · exact Or.inr hP
      · exact Or.inr hP

/-- C6: the mapping produced by the merge loop has at most one entry per
relative path (distinct keys), an accepted binding is never replaced by a
later candidate for the same relative path (every binding of the starting
map survives unchanged), and every entry that the loop adds has a canonical
target that is a regular file and is not an empty initializer file. -/
theorem merge_at_most_one_entry_first_wins (env : Env) (dirs : List String)
    (m0 m : List (String × String)) (h : (mergeAccum env dirs m0).1 = .ok m) :
    ((m0.map Prod.fst).Nodup → (m.map Prod.fst).Nodup) ∧
    (∀ k v, dictFind m0 k = some v → dictFind m k = some v) ∧
    (∀ k v, (k, v) ∈ m → (k, v) ∈ m0 ∨
      (env.isfileFn v = true ∧
       (pyEndswith k "__init__.py" && is_empty env v) = false)) :=
  mergeAccum_props env dirs m0 m h

/-- The mapping the conflict-scenario merge produces when A is processed
before B. -/
def mapABresult : List (String × String) :=
  [("pkg/mod.py", "/A/pkg/mod.py"), ("pkg/__init__.py", "/B/pkg/__init__.py"),
   ("pkg/other.py", "/B/pkg/other.py")]

/-- Witness for C6 at a concrete input: the two-directory merge of the
conflict scenario, starting from the empty mapping. -/
theorem merge_at_most_one_entry_first_wins_witness :
    (mergeAccum envAB [dirA, dirB] []).1 = .ok mapABresult ∧
    ((((([] : List (String × String))).map Prod.fst).Nodup →
      (mapABresult.map Prod.fst).Nodup) ∧
     (∀ k v, dictFind [] k = some v → dictFind mapABresult k = some v) ∧
     (∀ k v, (k, v) ∈ mapABresult → (k, v) ∈ ([] : List (String × String)) ∨
       (envAB.isfileFn v = true ∧
        (pyEndswith k "__init__.py" && is_empty envAB v) = false))) :=
  ⟨by decide,
   merge_at_most_one_entry_first_wins envAB [dirA, dirB] [] mapABresult (by decide)⟩

/-! ## C3: the manifest write is the last rebuild step -/

lemma waM_of_nowrite {l : List Event} (h : ∀ e ∈ l, isWriteEv e = false) :
    writeAfterMutations l :=
  ⟨l, [], by simp, h, by simp⟩

lemma waM_cons {a : Event} {l : List Event} (ha : isWriteEv a = false)
    (h : writeAfterMutations l) : writeAfterMutations (a :: l) := by
  obtain ⟨pre, post, rfl, h1, h2⟩ := h
  refine ⟨a :: pre, post, by simp, ?_, h2⟩
  intro e he
  rcases List.mem_cons.mp he with rfl | he
  · exact ha
  · exact h1 e he

lemma waM_append_nomut {l t : List Event} (h : writeAfterMutations l)
    (ht : ∀ e ∈ t, isMutationEv e = false) : writeAfterMutations (l ++ t) := by
  obtain ⟨pre, post, rfl, h1, h2⟩ := h
  refine ⟨pre, post ++ t, by simp, h1, ?_⟩
  intro e he
  rcases List.mem_append.mp he with he | he
  · exact h2 e he
  · exact ht e he

lemma clearGo_no_write (env : Env) (root : String) (names : List String) :
    ∀ e ∈ (clearGo env root names).1, isWriteEv e = false := by
  intro e he
  obtain ⟨n, _, _, rfl⟩ := clearGo_events_shape env root names e he
  rfl

lemma mergeAccum_no_write (env : Env) :
    ∀ (dirs : List String) (m : List (String × String)),
      ∀ e ∈ (mergeAccum env dirs m).2, isWriteEv e = false := by
  intro dirs
  induction dirs with
  | nil => intro m e he; simp [mergeAccum] at he
  | cons d rest ih =>
    intro m e he
    unfold mergeAccum at he
    cases hd : _merge_source_directory env d m with
    | error er =>
      rw [hd] at he
      simp at he
      subst he
      rfl
    | ok m1 =>
      rw [hd] at he
      simp only [List.mem_cons] at he
      rcases he with rfl | he
      · rfl
      · exact ih m1 e he

lemma buildLinks_no_write (env : Env) (root : String) :
    ∀ (l : List (String × String)), ∀ e ∈ (buildLinks env root l).2, isWriteEv e = false := by
  intro l
  induction l with
  | nil => intro e he; simp [buildLinks] at he
  | cons p rest ih =>
    obtain ⟨relative, original⟩ := p
    intro e he
    unfold buildLinks at he
    split at he
    · simp only [List.mem_cons] at he
      rcases he with rfl | he
      · rfl
      · exact ih e he
    · split at he
      · split at he
        · simp at he
        · split at he
          · simp only [List.mem_cons] at he
            rcases he with rfl | rfl | he
            · rfl
            · rfl
            · exact ih e he
          · simp at he
            subst he
            rfl
      · exact ih e he

lemma merge_no_write (env : Env) (root : String) (dirs : List String) :
    ∀ e ∈ (_merge env root dirs).2, isWriteEv e = false := by
  intro e he
  unfold _merge at he
  cases hm : (mergeAccum env dirs []).1 with
  | error er =>
    rw [hm] at he
    exact mergeAccum_no_write env dirs [] e he
  | ok all_paths =>
    rw [hm] at he
    rcases List.mem_append.mp he with h | h
    · exact mergeAccum_no_write env dirs [] e h
    · exact buildLinks_no_write env root all_paths e h

lemma prepareRebuild_waM (s : SharedSourceDirectory) (env : Env) (root : String) :
    writeAfterMutations (prepareRebuild s env root).2 := by
  have hnw : ∀ e ∈ (_clear env root).1 ++ (_merge env root s.source_directories).2,
      isWriteEv e = false := by
    intro e he
    rcases List.mem_append.mp he with h | h
    · exact clearGo_no_write env root _ e h
    · exact merge_no_write env root _ e h
  unfold prepareRebuild
  cases hld : env.listdirErr with
  | some e => exact waM_of_nowrite (fun x hx => absurd hx (List.not_mem_nil x))
  | none =>
    cases hm : (_merge env root s.source_directories).1 with
    | error er =>
      exact waM_of_nowrite hnw
    | ok u =>
      cases hw : env.manifestWriteErr with
      | some e => exact waM_of_nowrite hnw
      | none =>
        refine waM_append_nomut (waM_of_nowrite hnw) ?_
        intro e he
        simp at he
        subst he
        rfl

lemma prepareBody_trace_cases (s : SharedSourceDirectory) (env : Env) (root : String) :
    (prepareBody s env root).2 = [Event.readManifest] ∨
    (prepareBody s env root).2 = Event.readManifest :: (prepareRebuild s env root).2 := by
  cases hm : env.manifestRead with
  | ok tracked =>
    by_cases h : (s.source_directories.all fun d => tracked.contains d) = true
    · left
      unfold prepareBody
      rw [hm]
      simp only [h, if_true]
    · right
      unfold prepareBody
      rw [hm]
      simp only [h, Bool.false_eq_true, if_false]
  | error e =>
    by_cases h : (isOSError e || e == PyExc.jsonDecodeError) = true
    · right
      unfold prepareBody
      rw [hm]
      simp only [h, if_true]
    · left
      unfold prepareBody
      rw [hm]
      simp only [h, Bool.false_eq_true, if_false]

lemma prepareBody_waM (s : SharedSourceDirectory) (env : Env) (root : String) :
    writeAfterMutations (prepareBody s env root).2 := by
  rcases prepareBody_trace_cases s env root with h | h
  · rw [h]
    refine waM_of_nowrite ?_
    intro e he
    simp at he
    subst he
    rfl
  · rw [h]
    exact waM_cons rfl (prepareRebuild_waM s env root)

/-- C3: in every run of `prepare`, every manifest-write event in the trace
comes after every rebuild mutation (clearing, directory scanning, link
creation and link removal): the trace splits into a write-free first part
followed by a mutation-free second part, so the manifest is never updated
before link creation has finished. -/
theorem manifest_write_after_build (s : SharedSourceDirectory) (env : Env) :
    writeAfterMutations (s.prepare env).2 := by
  have hbody := prepareBody_waM s env s.get_root
  unfold SharedSourceDirectory.prepare
  by_cases hl : env.lockDirExists
  · simp only [acquire_lock, hl, if_true]
    split
    · exact waM_cons rfl (waM_cons rfl (waM_cons rfl
        (waM_append_nomut hbody (by intro e he; simp at he; subst he; rfl))))
    · split
      · exact waM_cons rfl (waM_cons rfl (waM_cons rfl hbody))
      · exact waM_cons rfl (waM_cons rfl (waM_cons rfl hbody))
  · simp only [acquire_lock, hl, Bool.false_eq_true, if_false]
    exact waM_cons rfl hbody

/-! ## C4: which exceptions escape `prepare` -/

/-- Environment in which the `find` executable is missing: the
`subprocess.check_output` call raises `FileNotFoundError`, which
`_find_python_paths` does not catch (it only catches
`CalledProcessError`). -/
def envFindMissing : Env :=
  { envBase with findRaw := fun _ => .error .fileNotFoundError }

/-- Counterexample to C4 as stated: with the manifest absent (so a rebuild
runs) and the `find` executable missing, `prepare` raises a `RuntimeError` —
not an `EnvironmentException` — to its caller: the `FileNotFoundError` from
`subprocess.check_output` is thrown into the `acquire_lock` generator at its
`yield`, the generator's `except FileNotFoundError` catches it and yields a
second time, and `contextlib` converts that into `RuntimeError` ("generator
did not stop after throw"). -/
theorem prepare_missing_find_tool_not_env_failure :
    (sA.prepare envFindMissing).1 = .error .runtimeError := by decide

lemma find_paths_eq_ok (env : Env) (root out : String)
    (h : env.findRaw (env.abspathFn root) = .ok out) :
    _find_python_paths env root = .ok (pySplitNewline (pyStrip out)) := by
  unfold _find_python_paths
  rw [h]

lemma find_paths_eq_cpe (env : Env) (root : String) (rc : Int)
    (h : env.findRaw (env.abspathFn root) = .error (.calledProcessError rc)) :
    _find_python_paths env root = .error (.environmentException
      "pyre was unable to locate a source directory. Ensure that your project is built and re-run pyre.") := by
  unfold _find_python_paths
  rw [h]

lemma findWB_error (env : Env) (d : String) (e : PyExc)
    (hf : env.findRaw (env.abspathFn d) = .error e)
    (h : findWellBehaved env d = true) : ∃ rc, e = PyExc.calledProcessError rc := by
  unfold findWellBehaved at h
  rw [hf] at h
  cases e with
  | calledProcessError rc => exact ⟨rc, rfl⟩
  | osError n => exact Bool.noConfusion h
  | fileNotFoundError => exact Bool.noConfusion h
  | jsonDecodeError => exact Bool.noConfusion h
  | unicodeDecodeError => exact Bool.noConfusion h
  | valueError => exact Bool.noConfusion h
  | runtimeError => exact Bool.noConfusion h
  | environmentException msg => exact Bool.noConfusion h

lemma msdGo_ok_of_no_empty (env : Env) (d : String) :
    ∀ (paths : List String) (m : List (String × String)), "" ∉ paths →
      ∃ m', msdGo env d paths m = .ok m' := by
  intro paths
  induction paths with
  | nil => intro m _; exact ⟨m, rfl⟩
  | cons path rest ih =>
    intro m hne
    have hp : path ≠ "" := by
      intro h
      exact hne (by rw [h]; exact List.mem_cons_self _ _)
    have hrest : "" ∉ rest := fun h => hne (List.mem_cons_of_mem _ h)
    rw [msdGo_cons env d path rest m hp]
    by_cases h1 : (dictFind m (env.relpathFn path d)).isSome
    · rw [if_pos h1]; exact ih m hrest
    rw [if_neg h1]
    by_cases h2 : env.vanishes path = true
    · rw [if_pos h2]; exact ih m hrest
    rw [if_neg h2]
    by_cases h3 : (!(env.isfileFn (env.realpathFn path))) = true
    · rw [if_pos h3]; exact ih m hrest
    rw [if_neg h3]
    by_cases h4 : (pyEndswith (env.relpathFn path d) "__init__.py" &&
        is_empty env (env.realpathFn path)) = true
    · rw [if_pos h4]; exact ih m hrest
    rw [if_neg h4]
    exact ih _ hrest

lemma msd_ok_or_env (env : Env) (d : String) (m : List (String × String))
    (h : findWellBehaved env d = true) :
    (∃ m', _merge_source_directory env d m = .ok m') ∨
    (∃ msg, _merge_source_directory env d m = .error (.environmentException msg)) := by
  cases hf : env.findRaw (env.abspathFn d) with
  | ok out =>
    have hb : (!((pySplitNewline (pyStrip out)).contains "")) = true := by
      have h' := h
      unfold findWellBehaved at h'
      rw [hf] at h'
      exact h'
    have hnm : "" ∉ pySplitNewline (pyStrip out) := by
      intro hmem
      have hcon : (pySplitNewline (pyStrip out)).contains "" = true :=
        List.elem_iff.mpr hmem
      rw [hcon] at hb
      exact Bool.noConfusion hb
    left
    obtain ⟨m', hm'⟩ := msdGo_ok_of_no_empty env d (pySplitNewline (pyStrip out)) m hnm
    refine ⟨m', ?_⟩
    unfold _merge_source_directory
    rw [find_paths_eq_ok env d out hf]
    exact hm'
  | error e =>
    obtain ⟨rc, rfl⟩ := findWB_error env d e hf h
    right
    refine ⟨"pyre was unable to locate a source directory. Ensure that your project is built and re-run pyre.", ?_⟩
    unfold _merge_source_directory
    rw [find_paths_eq_cpe env d rc hf]

lemma mergeAccum_ok_or_env (env : Env) :
    ∀ (dirs : List String) (m : List (String × String)),
      (∀ d ∈ dirs, findWellBehaved env d = true) →
      (∃ m', (mergeAccum env dirs m).1 = .ok m') ∨
      (∃ msg, (mergeAccum env dirs m).1 = .error (.environmentException msg)) := by
  intro dirs
  induction dirs with
  | nil => intro m _; exact Or.inl ⟨m, rfl⟩
  | cons d rest ih =>
    intro m hwb
    have hd := hwb d (List.mem_cons_self _ _)
    rcases msd_ok_or_env env d m hd with ⟨m1, h1⟩ | ⟨msg, h1⟩
    · have hrec := ih m1 (fun d' hd' => hwb d' (List.mem_cons_of_mem _ hd'))
      unfold mergeAccum
      rw [h1]
      exact hrec
    · unfold mergeAccum
      rw [h1]
      exact Or.inr ⟨msg, rfl⟩

lemma buildLinks_ok (env : Env) (root : String)
    (hu : ∀ p, env.unlinkErr p = none) (hr : ∀ p, env.symlink2 p = none) :
    ∀ (l : List (String × String)), (buildLinks env root l).1 = .ok () := by
  intro l
  induction l with
  | nil => rfl
  | cons p rest ih =>
    obtain ⟨relative, original⟩ := p
    unfold buildLinks
    split
    · exact ih
    · split
      · split
        · rename_i eu hequ
          rw [hu (os_path_join root relative)] at hequ
          exact Option.noConfusion hequ
        · split
          · exact ih
          · rename_i e2 heq2
            rw [hr (os_path_join root relative)] at heq2
            exact Option.noConfusion heq2
      · exact ih

lemma merge_ok_or_env (env : Env) (root : String) (dirs : List String)
    (hwb : ∀ d ∈ dirs, findWellBehaved env d = true)
    (hu : ∀ p, env.unlinkErr p = none)
    (hr : ∀ p, env.symlink2 p = none) :
    (_merge env root dirs).1 = .ok () ∨
    (∃ msg, (_merge env root dirs).1 = .error (.environmentException msg)) := by
  rcases mergeAccum_ok_or_env env dirs [] hwb with ⟨m', hm⟩ | ⟨msg, hm⟩
  · unfold _merge
    rw [hm]
    exact Or.inl (buildLinks_ok env root hu hr m')
  · unfold _merge
    rw [hm]
    exact Or.inr ⟨msg, rfl⟩

lemma prepareRebuild_ok_or_env (s : SharedSourceDirectory) (env : Env) (root : String)
    (hwb : ∀ d ∈ s.source_directories, findWellBehaved env d = true)
    (hu : ∀ p, env.unlinkErr p = none)
    (hr : ∀ p, env.symlink2 p = none)
    (hl : env.listdirErr = none)
    (hw : env.manifestWriteErr = none) :
    (prepareRebuild s env root).1 = .ok () ∨
    (∃ msg, (prepareRebuild s env root).1 = .error (.environmentException msg)) := by
  rcases merge_ok_or_env env root s.source_directories hwb hu hr with hm | ⟨msg, hm⟩
  · unfold prepareRebuild
    rw [hl, hm, hw]
    exact Or.inl rfl
  · unfold prepareRebuild
    rw [hl, hm]
    exact Or.inr ⟨msg, rfl⟩

lemma acquire_lock_fst_of_not_fnf (env : Env) (b : Bool)
    (body : Except PyExc Unit × List Event)
    (h : body.1 ≠ .error .fileNotFoundError) :
    (acquire_lock env b body).1 = body.1 := by
  unfold acquire_lock
  by_cases hl : env.lockDirExists
  · simp only [hl, if_true]
    cases hb : body.1 with
    | ok u => rfl
    | error e =>
      have he : e ≠ PyExc.fileNotFoundError := by
        intro hh
        subst hh
        exact h hb
      simp [he]
  · simp only [hl, Bool.false_eq_true, if_false]

lemma prepareBody_ok_or_env (s : SharedSourceDirectory) (env : Env) (root : String)
    (hm : manifestReadCaught env = true)
    (hwb : ∀ d ∈ s.source_directories, findWellBehaved env d = true)
    (hu : ∀ p, env.unlinkErr p = none)
    (hr : ∀ p, env.symlink2 p = none)
    (hl : env.listdirErr = none)
    (hw : env.manifestWriteErr = none) :
    (prepareBody s env root).1 = .ok () ∨
    (∃ msg, (prepareBody s env root).1 = .error (.environmentException msg)) := by
  cases hmr : env.manifestRead with
  | ok tracked =>
    by_cases h : (s.source_directories.all fun d => tracked.contains d) = true
    · left
      unfold prepareBody
      rw [hmr]
      simp only [h, if_true]
    · have hp := prepareRebuild_ok_or_env s env root hwb hu hr hl hw
      have hbody : (prepareBody s env root).1 = (prepareRebuild s env root).1 := by
        unfold prepareBody
        rw [hmr]
        simp only [h, Bool.false_eq_true, if_false]
      rw [hbody]
      exact hp
  | error e =>
    have hc : (isOSError e || e == PyExc.jsonDecodeError) = true := by
      have h2 := hm
      unfold manifestReadCaught at h2
      rw [hmr] at h2
      exact h2
    have hp := prepareRebuild_ok_or_env s env root hwb hu hr hl hw
    have hbody : (prepareBody s env root).1 = (prepareRebuild s env root).1 := by
      unfold prepareBody
      rw [hmr]
      simp only [hc, if_true]
    rw [hbody]
    exact hp

/-- C4 (amended): `prepare` propagates only `EnvironmentException` provided
that the manifest read fails only with the exception kinds the code catches
(`OSError` or `json.JSONDecodeError`), the `find` invocation for every
requested directory either fails with a nonzero exit status (converted to
`EnvironmentException`) or produces a listing with no empty entry, every
`os.unlink` and every retried `os.symlink` during link creation succeeds,
`os.listdir` of the overlay root succeeds, the manifest write succeeds, and
the lock-file open either succeeds or fails only because its directory is
missing (the modelled outcomes; another open failure, such as a
`PermissionError`, would also escape).  Outside these conditions other
exceptions do escape `prepare`: a missing `find` executable leads to
`RuntimeError` — its `FileNotFoundError` is thrown into the `acquire_lock`
generator, whose handler yields again (see the counterexample) — an empty
listing entry propagates `ValueError` from `os.path.relpath`, and `OSError`
from `os.listdir`, `os.unlink`, the `os.symlink` retry or the manifest write
propagates. -/
theorem prepare_error_propagation_amended (s : SharedSourceDirectory) (env : Env)
    (hm : manifestReadCaught env = true)
    (hwb : ∀ d ∈ s.source_directories, findWellBehaved env d = true)
    (hu : ∀ p, env.unlinkErr p = none)
    (hr : ∀ p, env.symlink2 p = none)
    (hl : env.listdirErr = none)
    (hw : env.manifestWriteErr = none) :
    (s.prepare env).1 = .ok () ∨
    (∃ msg, (s.prepare env).1 = .error (.environmentException msg)) := by
  have h := prepareBody_ok_or_env s env s.get_root hm hwb hu hr hl hw
  have hne : (prepareBody s env s.get_root).1 ≠ .error .fileNotFoundError := by
    rcases h with h2 | ⟨msg, h2⟩
    · rw [h2]
      intro hc
      exact Except.noConfusion hc
    · rw [h2]
      intro hc
      exact PyExc.noConfusion (Except.error.inj hc)
  have hfst : (s.prepare env).1 = (prepareBody s env s.get_root).1 :=
    acquire_lock_fst_of_not_fnf env true _ hne
  rw [hfst]
  exact h

/-- The client requesting both conflict-scenario directories. -/
def sAB : SharedSourceDirectory where
  source_directories := [dirA, dirB]
  isolate := false
  pid := 0

/-- Witness for the amended C4 at a concrete input: under the well-behaved
conflict-scenario environment, `prepare` either succeeds or raises only
`EnvironmentException` (here it succeeds). -/
theorem prepare_error_propagation_amended_witness :
    manifestReadCaught envAB = true ∧
    (∀ d ∈ sAB.source_directories, findWellBehaved envAB d = true) ∧
    (∀ p, envAB.unlinkErr p = none) ∧
    (∀ p, envAB.symlink2 p = none) ∧
    envAB.listdirErr = none ∧
    envAB.manifestWriteErr = none ∧
    ((sAB.prepare envAB).1 = .ok () ∨
     (∃ msg, (sAB.prepare envAB).1 = .error (.environmentException msg))) :=
  ⟨rfl, by decide, fun _ => rfl, fun _ => rfl, rfl, rfl,
   prepare_error_propagation_amended sAB envAB rfl (by decide) (fun _ => rfl) (fun _ => rfl)
     rfl rfl⟩
